import Mathlib

/-!
Verification of the Uber pickups data-exploration app (`uber_app.py`).

The app has two logical components:
* a data loader `load_data` that fetches at most `nrows` rows of a CSV,
  lowercases every column name, and parses the `date/time` column into a
  structured date-time value (memoized by `@st.cache`);
* view derivation: a 24-bucket histogram of pickup hours
  (`np.histogram(..., bins=24, range=(0,24))`) and a boolean-mask filter
  selecting the rows whose pickup hour equals the slider value.

We embed the data model shallowly: a parsed timestamp is its count of
seconds since the epoch, and the `.dt.hour` accessor is `t / 3600 % 24`.
External library calls (`pd.read_csv` with `nrows`, `pd.to_datetime`,
`np.histogram`, boolean-mask selection, `@st.cache`) are embedded by
their documented behaviour on this data.
-/

namespace UberApp

/-- A raw CSV row as fetched from the remote source: the `Date/Time`
column is unparsed text; `Lat`/`Lon` are the two coordinates. -/
structure RawRow where
  dateTime : String
  lat : Int
  lon : Int
deriving DecidableEq

/-- The raw frame returned by `pd.read_csv`: header column names plus rows. -/
structure RawFrame where
  cols : List String
  rows : List RawRow
deriving DecidableEq

/-- A record after `pd.to_datetime`: the timestamp is structured
(seconds since the epoch). -/
structure Rec where
  dt : Nat
  lat : Int
  lon : Int
deriving DecidableEq

/-- A loaded table: column names and parsed records. -/
structure Frame where
  cols : List String
  rows : List Rec
deriving DecidableEq

/-- The `.dt.hour` accessor: the hour component of a timestamp. -/
def hourOf (r : Rec) : Nat := r.dt / 3600 % 24

/-- The hour component is always in `[0, 23]`. -/
theorem hourOf_lt (r : Rec) : hourOf r < 24 :=
  Nat.mod_lt _ (by decide)

/-- ASCII lowercasing of one character, as done by `str.lower`
on the column names of this dataset. -/
def charLower (c : Char) : Char :=
  if 65 ≤ c.toNat ∧ c.toNat ≤ 90 then Char.ofNat (c.toNat + 32) else c

/-- Lowercasing `str(x).lower()` applied to a column name. -/
def strLower (s : String) : String := ⟨s.data.map charLower⟩

/-- Embedding of `pd.read_csv(DATA_URL, nrows=nrows)`: fetches at most
`nrows` rows from the remote source; the bound is applied at fetch time. -/
def read_csv (src : RawFrame) (nrows : Nat) : RawFrame :=
  ⟨src.cols, src.rows.take nrows⟩

/-- Embedding of `pd.to_datetime` over the date column: parses every
value, failing (`none`) as soon as any single value is unparseable. -/
def parseAll (parse : String → Option Nat) : List RawRow → Option (List Rec)
  | [] => some []
  | r :: rs =>
    match parse r.dateTime with
    | none => none
    | some t => (parseAll parse rs).map (fun l => ⟨t, r.lat, r.lon⟩ :: l)

/-- The loader `load_data(nrows)` from `uber_app.py`: read at most `nrows` rows,
lowercase the column names, parse the `date/time` column; a parse
failure propagates as an error. The date-time parser (`pd.to_datetime`
on one cell) is passed in as `parse`. -/
def load_data (parse : String → Option Nat) (src : RawFrame) (nrows : Nat) :
    Except String Frame :=
  let data := read_csv src nrows
  let cols := data.cols.map strLower
  match parseAll parse data.rows with
  | some recs => .ok ⟨cols, recs⟩
  | none => .error "ParseError"

/-- The memoization state of `@st.cache`: results keyed by the argument
value, together with a count of how many times the underlying
fetch-and-parse body has run. -/
structure CacheState where
  entries : List (Nat × Except String Frame)
  fetchCount : Nat


/-- The loader as decorated by `@st.cache`: on a cache hit the stored
result is returned unchanged; on a miss the body (fetch + parse) runs
once and the result is stored under the argument value. -/
def load_data_cached (parse : String → Option Nat) (src : RawFrame)
    (s : CacheState) (nrows : Nat) : Except String Frame × CacheState :=
  match s.entries.lookup nrows with
  | some r => (r, s)
  | none =>
    let r := load_data parse src nrows
    (r, ⟨(nrows, r) :: s.entries, s.fetchCount + 1⟩)

/-- Membership of an hour value `v` in bucket `i` of
`np.histogram(..., bins=24, range=(0,24))`: bucket `i < 23` is the
half-open bin `[i, i+1)`; the last bucket is the closed bin `[23, 24]`. -/
def histBin (i v : Nat) : Bool :=
  if i == 23 then 23 ≤ v && v ≤ 24 else i ≤ v && v < i + 1

/-- The histogram `hist_values` from `uber_app.py`:
`np.histogram(data[DATE_COLUMN].dt.hour, bins=24, range=(0,24))[0]`. -/
def hist_values (T : Frame) : List Nat :=
  (List.range 24).map fun i => ((T.rows.map hourOf).filter (fun v => histBin i v)).length

/-- The map view `filtered_data` from `uber_app.py`:
`data[data[DATE_COLUMN].dt.hour == hour]` — boolean-mask selection of
the rows whose hour equals the slider value, preserving row order. -/
def filtered_data (T : Frame) (hour : Nat) : Frame :=
  ⟨T.cols, T.rows.filter (fun r => hourOf r == hour)⟩

/-- The observable outcome of one rerun of the app script: the cache
after the (memoized) load, the loaded table (or the propagated load
error), and the two derived views when the load succeeded. -/
structure RunResult where
  finalCache : CacheState
  table : Except String Frame
  hist : Option (List Nat)
  filtered : Option Frame

/-- One rerun of the app script: call the cached loader with the fixed
row limit 10000, then (when the load succeeded) compute the histogram
and the filtered view for the current slider hour. Both views are
recomputed from the current table and hour on every rerun; the table
itself is carried through unchanged. -/
def run_app (parse : String → Option Nat) (src : RawFrame)
    (cache : CacheState) (hour : Nat) : RunResult :=
  let res := load_data_cached parse src cache 10000
  match res.1 with
  | .ok T => ⟨res.2, .ok T, some (hist_values T), some (filtered_data T hour)⟩
  | .error e => ⟨res.2, .error e, none, none⟩

/-! Concrete sample data, used to witness the theorems below.
`sampleFrame` is the spec's scenario: three records with hours 5, 17, 17. -/

/-- A loaded table with pickup hours `[5, 17, 17]`. -/
def sampleFrame : Frame :=
  ⟨["date/time", "lat", "lon"],
   [⟨18000, 40, -74⟩, ⟨61200, 41, -73⟩, ⟨61260, 42, -72⟩]⟩

/-- A raw three-row source frame. -/
def sampleSrc : RawFrame :=
  ⟨["Date/Time", "Lat", "Lon"], [⟨"a", 1, 2⟩, ⟨"bb", 3, 4⟩, ⟨"ccc", 5, 6⟩]⟩

/-- A total sample cell parser: hour equals the cell's length. -/
def sampleParse (s : String) : Option Nat := some (3600 * s.length)

/-- A sample cell parser that fails on three-character cells. -/
def failParse (s : String) : Option Nat :=
  if s.length == 3 then none else some (3600 * s.length)

/-! Helper lemmas. -/

/-- For hour values below 24, membership in bucket `i` is equality with `i`. -/
theorem histBin_eq {i v : Nat} (hi : i < 24) (hv : v < 24) :
    histBin i v = (v == i) := by
  interval_cases i <;> interval_cases v <;> rfl

/-- Bucket `i` of the histogram counts the records of hour `i`. -/
theorem hist_values_getD (T : Frame) {i : Nat} (hi : i < 24) :
    (hist_values T).getD i 0 = (T.rows.filter (fun r => hourOf r == i)).length := by
  have h1 : (hist_values T).getD i 0
      = ((T.rows.map hourOf).filter (fun v => histBin i v)).length := by
    rw [hist_values, List.getD_eq_getD_get?, List.get?_map, List.get?_range hi]
    rfl
  rw [h1, List.filter_map, List.length_map]
  congr 1
  refine List.filter_congr (fun r _ => ?_)
  exact histBin_eq hi (hourOf_lt r)

/-- An hour value below 24 lies in exactly one of the 24 buckets. -/
theorem histBin_indicator {v : Nat} (hv : v < 24) :
    ((List.range 24).map fun i => if histBin i v then 1 else 0).sum = 1 := by
  interval_cases v <;> decide

/-- Summed over the 24 buckets, the bucket counts of a list of hour
values below 24 add up to the length of the list. -/
theorem sum_histBin_counts (l : List Nat) (h : ∀ v ∈ l, v < 24) :
    ((List.range 24).map fun i => (l.filter (fun v => histBin i v)).length).sum
      = l.length := by
  induction l with
  | nil => simp
  | cons v vs ih =>
    have hv : v < 24 := h v (by simp)
    have ihh := ih (fun x hx => h x (by simp [hx]))
    have step : ∀ i : Nat, ((v :: vs).filter (fun x => histBin i x)).length
        = (if histBin i v then 1 else 0) + (vs.filter (fun x => histBin i x)).length := by
      intro i
      by_cases hb : histBin i v <;> simp [List.filter_cons, hb] <;> omega
    simp only [step, List.sum_map_add, histBin_indicator hv, ihh]
    simp [Nat.add_comm]

/-- Parsing preserves the number of rows. -/
theorem parseAll_length {parse : String → Option Nat} :
    ∀ {l : List RawRow} {l2 : List Rec}, parseAll parse l = some l2 → l2.length = l.length := by
  intro l
  induction l with
  | nil => intro l2 hp; cases hp; rfl
  | cons x xs ih =>
    intro l2 hp
    unfold parseAll at hp
    cases hx : parse x.dateTime with
    | none => rw [hx] at hp; cases hp
    | some t =>
      rw [hx] at hp
      cases hxs : parseAll parse xs with
      | none => rw [hxs] at hp; cases hp
      | some l3 =>
        rw [hxs] at hp
        cases hp
        simp [ih hxs]

/-- Parsing fails as soon as one cell is unparseable. -/
theorem parseAll_none {parse : String → Option Nat} :
    ∀ {l : List RawRow}, (∃ r ∈ l, parse r.dateTime = none) → parseAll parse l = none := by
  intro l
  induction l with
  | nil => rintro ⟨r, hr, _⟩; cases hr
  | cons x xs ih =>
    rintro ⟨r, hr, hp⟩
    rcases List.mem_cons.mp hr with rfl | hmem
    · simp [parseAll, hp]
    · unfold parseAll
      cases parse x.dateTime with
      | none => rfl
      | some t => rw [ih ⟨r, hmem, hp⟩]; rfl

/-- Building a character from a code point below the surrogate range
keeps the code point. -/
theorem toNat_ofNat_valid {n : Nat} (h1 : n < 55296) : (Char.ofNat n).toNat = n := by
  have hv : Nat.isValidChar n := Or.inl h1
  simp [Char.ofNat, hv, Char.toNat, Char.ofNatAux, UInt32.toNat]

/-- The numeric value of a lowercased uppercase letter. -/
theorem charLower_toNat {c : Char} (h : 65 ≤ c.toNat ∧ c.toNat ≤ 90) :
    (charLower c).toNat = c.toNat + 32 := by
  rw [charLower, if_pos h, toNat_ofNat_valid (by omega)]

/-- A lowercased character is never an uppercase ASCII letter. -/
theorem charLower_not_upper (c : Char) :
    ¬(65 ≤ (charLower c).toNat ∧ (charLower c).toNat ≤ 90) := by
  by_cases h : 65 ≤ c.toNat ∧ c.toNat ≤ 90
  · rw [charLower_toNat h]; omega
  · unfold charLower; rw [if_neg h]; exact h

/-- A string contains no uppercase ASCII letter. -/
def isLowercase (s : String) : Prop :=
  ∀ c ∈ s.data, ¬(65 ≤ c.toNat ∧ c.toNat ≤ 90)

/-- Calling the cached loader again with the argument of a previous call
returns that call's result and leaves the cache state (and hence the
fetch count) unchanged. -/
theorem cached_second_call (parse : String → Option Nat) (src : RawFrame)
    (s : CacheState) (n : Nat) :
    load_data_cached parse src (load_data_cached parse src s n).2 n
      = ((load_data_cached parse src s n).1, (load_data_cached parse src s n).2) := by
  cases hl : s.entries.lookup n with
  | some r => simp [load_data_cached, hl]
  | none => simp [load_data_cached, hl, List.lookup]

/-! Claim theorems. -/

/-- C1: for every table `T`, `hist_values T` is a fixed-size ordered
sequence of exactly 24 (non-negative) integers in which bucket `i`, for
each `i < 24`, equals the number of records of `T` whose timestamp hour
equals `i`, the counts being bucketed into the 24 fixed-width bins of
`np.histogram` over the range `[0, 24)`. -/
theorem hist_values_is_hour_counts (T : Frame) :
    (hist_values T).length = 24 ∧
    ∀ i, i < 24 →
      (hist_values T).getD i 0 = (T.rows.filter (fun r => hourOf r == i)).length :=
  ⟨by simp [hist_values], fun _ hi => hist_values_getD T hi⟩

/-- Witness for C1 on the sample table with hours `[5, 17, 17]`. -/
theorem hist_values_is_hour_counts_witness :
    (hist_values sampleFrame).length = 24 ∧ (hist_values sampleFrame).getD 17 0 = 2 :=
  ⟨(hist_values_is_hour_counts sampleFrame).1,
   by rw [(hist_values_is_hour_counts sampleFrame).2 17 (by decide)]; decide⟩

/-- C2: for every table `T`, the 24 buckets of `hist_values T` sum to
the number of records of `T` (equality, since every record's hour
component lies in `[0, 23]` and so lands in exactly one bucket). -/
theorem hist_values_sum (T : Frame) : (hist_values T).sum = T.rows.length := by
  have h := sum_histBin_counts (T.rows.map hourOf) ?_
  · simpa [hist_values] using h
  · intro v hv
    rcases List.mem_map.mp hv with ⟨r, _, rfl⟩
    exact hourOf_lt r

/-- C3: for every table `T` and hour `h < 24`, every record of
`filtered_data T h` has timestamp hour exactly `h`, and its rows form a
subsequence of the rows of `T` in the original order. -/
theorem filtered_data_rows_spec (T : Frame) (h : Nat) (hh : h < 24) :
    (∀ r ∈ (filtered_data T h).rows, hourOf r = h) ∧
    (filtered_data T h).rows.Sublist T.rows := by
  constructor
  · intro r hr
    simpa using (List.mem_filter.mp hr).2
  · exact List.filter_sublist _

/-- Witness for C3: hour 17 on the sample table. -/
theorem filtered_data_rows_spec_witness :
    hourOf ⟨61200, 41, -73⟩ = 17 ∧
    (filtered_data sampleFrame 17).rows.Sublist sampleFrame.rows :=
  ⟨(filtered_data_rows_spec sampleFrame 17 (by decide)).1 ⟨61200, 41, -73⟩ (by decide),
   (filtered_data_rows_spec sampleFrame 17 (by decide)).2⟩

/-- C4: for every row limit `N`, the fetch returns at most `N` rows —
the bound holds already on the fetched raw frame (it is applied at fetch
time by `nrows`, not by truncation afterwards), and the loader then
keeps exactly the fetched rows. -/
theorem load_data_row_limit (parse : String → Option Nat) (src : RawFrame) (N : Nat) :
    (read_csv src N).rows.length ≤ N ∧
    ∀ T, load_data parse src N = .ok T →
      T.rows.length = (read_csv src N).rows.length := by
  constructor
  · simp [read_csv, List.length_take]
  · intro T hT
    simp only [load_data] at hT
    cases hp : parseAll parse (read_csv src N).rows with
    | none => rw [hp] at hT; cases hT
    | some recs =>
      rw [hp] at hT
      cases hT
      exact parseAll_length hp

/-- Witness for C4: loading two rows of the three-row sample source. -/
theorem load_data_row_limit_witness :
    (read_csv sampleSrc 2).rows.length ≤ 2 ∧
    (⟨["date/time", "lat", "lon"], [⟨3600, 1, 2⟩, ⟨7200, 3, 4⟩]⟩ : Frame).rows.length
      = (read_csv sampleSrc 2).rows.length :=
  ⟨(load_data_row_limit sampleParse sampleSrc 2).1,
   (load_data_row_limit sampleParse sampleSrc 2).2
     ⟨["date/time", "lat", "lon"], [⟨3600, 1, 2⟩, ⟨7200, 3, 4⟩]⟩ (by rfl)⟩

/-- C5: the cached loader is memoized per argument value: calling it a
second time with the same row limit returns the very result of the
first call and leaves the cache state — including the count of
fetch-and-parse executions — unchanged, and a single call runs the
fetch-and-parse body at most once. -/
theorem load_data_cached_memo (parse : String → Option Nat) (src : RawFrame)
    (s : CacheState) (n : Nat) :
    load_data_cached parse src (load_data_cached parse src s n).2 n
      = ((load_data_cached parse src s n).1, (load_data_cached parse src s n).2) ∧
    (load_data_cached parse src s n).2.fetchCount ≤ s.fetchCount + 1 := by
  refine ⟨cached_second_call parse src s n, ?_⟩
  cases hl : s.entries.lookup n with
  | some r => simp [load_data_cached, hl]
  | none => simp [load_data_cached, hl]

/-- C6: the loader fails with the parse error whenever any fetched cell
of the date column is unparseable, and the error is returned to the
caller rather than masked. -/
theorem load_data_parse_error (parse : String → Option Nat) (src : RawFrame) (n : Nat)
    (h : ∃ r ∈ (read_csv src n).rows, parse r.dateTime = none) :
    load_data parse src n = .error "ParseError" := by
  simp only [load_data]
  rw [parseAll_none h]

/-- Witness for C6: the failing parser rejects the third sample cell. -/
theorem load_data_parse_error_witness :
    load_data failParse sampleSrc 3 = .error "ParseError" :=
  load_data_parse_error failParse sampleSrc 3 ⟨⟨"ccc", 5, 6⟩, by decide, by decide⟩

/-- C7: when no record of `T` has hour `h`, the filtered view is the
empty sequence (and, being a total function, no error is raised). -/
theorem filtered_data_empty_on_no_match (T : Frame) (h : Nat)
    (hnone : ∀ r ∈ T.rows, hourOf r ≠ h) :
    (filtered_data T h).rows = [] := by
  simp only [filtered_data]
  refine List.filter_eq_nil_iff.mpr (fun r hr => ?_)
  simpa using hnone r hr

/-- Witness for C7: no sample record has hour 3. -/
theorem filtered_data_empty_on_no_match_witness :
    (filtered_data sampleFrame 3).rows = [] :=
  filtered_data_empty_on_no_match sampleFrame 3 (by decide)

/-- C8: every column name of a successfully loaded table is lowercase:
the loader normalizes each fetched column name with `str.lower`. -/
theorem load_data_cols_lowercase (parse : String → Option Nat) (src : RawFrame)
    (n : Nat) (T : Frame) (h : load_data parse src n = .ok T) :
    ∀ c ∈ T.cols, isLowercase c := by
  simp only [load_data] at h
  cases hp : parseAll parse (read_csv src n).rows with
  | none => rw [hp] at h; cases h
  | some recs =>
    rw [hp] at h
    cases h
    intro c hc
    rcases List.mem_map.mp hc with ⟨x, _, rfl⟩
    intro ch hch
    rcases List.mem_map.mp hch with ⟨y, _, rfl⟩
    exact charLower_not_upper y

/-- Witness for C8: the loaded sample columns are lowercase. -/
theorem load_data_cols_lowercase_witness : isLowercase "date/time" :=
  load_data_cols_lowercase sampleParse sampleSrc 2
    ⟨["date/time", "lat", "lon"], [⟨3600, 1, 2⟩, ⟨7200, 3, 4⟩]⟩ (by rfl)
    "date/time" (by decide)

/-- C9: view derivation is deterministic and effect-free on the table.
In the state-passing embedding of a rerun, computing the histogram and
the filtered view leaves the loaded table (and the cache) unchanged:
the table of a second rerun equals the table of the first, and the two
views of each rerun are exactly `hist_values`/`filtered_data` of the
current table and the current slider hour — recomputed from the table
on every hour change, never read from a view cache. -/
theorem run_app_views_pure (parse : String → Option Nat) (src : RawFrame)
    (c : CacheState) (h1 h2 : Nat) :
    (run_app parse src (run_app parse src c h1).finalCache h2).table
      = (run_app parse src c h1).table ∧
    (run_app parse src (run_app parse src c h1).finalCache h2).finalCache
      = (run_app parse src c h1).finalCache ∧
    ∀ T, (run_app parse src c h1).table = .ok T →
      (run_app parse src c h1).hist = some (hist_values T) ∧
      (run_app parse src c h1).filtered = some (filtered_data T h1) ∧
      (run_app parse src (run_app parse src c h1).finalCache h2).hist
        = some (hist_values T) ∧
      (run_app parse src (run_app parse src c h1).finalCache h2).filtered
        = some (filtered_data T h2) := by
  have hsec := cached_second_call parse src c 10000
  cases hd : (load_data_cached parse src c 10000).1 with
  | ok T =>
    have h1run : run_app parse src c h1
        = ⟨(load_data_cached parse src c 10000).2, .ok T,
           some (hist_values T), some (filtered_data T h1)⟩ := by
      simp [run_app, hd]
    have h2run : run_app parse src (run_app parse src c h1).finalCache h2
        = ⟨(load_data_cached parse src c 10000).2, .ok T,
           some (hist_values T), some (filtered_data T h2)⟩ := by
      rw [h1run]
      simp [run_app, hsec, hd]
    rw [h2run, h1run]
    refine ⟨rfl, rfl, fun U hU => ?_⟩
    cases hU
    exact ⟨rfl, rfl, rfl, rfl⟩
  | error e =>
    have h1run : run_app parse src c h1
        = ⟨(load_data_cached parse src c 10000).2, .error e, none, none⟩ := by
      simp [run_app, hd]
    have h2run : run_app parse src (run_app parse src c h1).finalCache h2
        = ⟨(load_data_cached parse src c 10000).2, .error e, none, none⟩ := by
      rw [h1run]
      simp [run_app, hsec, hd]
    rw [h2run, h1run]
    exact ⟨rfl, rfl, fun U hU => by cases hU⟩

/-- Witness for C9: two reruns on the sample source, hours 5 then 17. -/
theorem run_app_views_pure_witness :
    (run_app sampleParse sampleSrc (run_app sampleParse sampleSrc ⟨[], 0⟩ 5).finalCache 17).table
      = (run_app sampleParse sampleSrc ⟨[], 0⟩ 5).table ∧
    (run_app sampleParse sampleSrc (run_app sampleParse sampleSrc ⟨[], 0⟩ 5).finalCache 17).filtered
      = some (filtered_data
          ⟨["date/time", "lat", "lon"], [⟨3600, 1, 2⟩, ⟨7200, 3, 4⟩, ⟨10800, 5, 6⟩]⟩ 17) :=
  ⟨(run_app_views_pure sampleParse sampleSrc ⟨[], 0⟩ 5 17).1,
   ((run_app_views_pure sampleParse sampleSrc ⟨[], 0⟩ 5 17).2.2
     ⟨["date/time", "lat", "lon"], [⟨3600, 1, 2⟩, ⟨7200, 3, 4⟩, ⟨10800, 5, 6⟩]⟩
     (by rfl)).2.2.2⟩

/-- C10: for every table `T` and hour `h < 24`, the number of rows of
the filtered view equals bucket `h` of the histogram: the count the bar
chart shows for hour `h` agrees with the number of points on the map. -/
theorem filtered_length_eq_hist_bucket (T : Frame) (h : Nat) (hh : h < 24) :
    (filtered_data T h).rows.length = (hist_values T).getD h 0 := by
  rw [hist_values_getD T hh]
  rfl

/-- Witness for C10: hour 17 on the sample table. -/
theorem filtered_length_eq_hist_bucket_witness :
    (filtered_data sampleFrame 17).rows.length = (hist_values sampleFrame).getD 17 0 :=
  filtered_length_eq_hist_bucket sampleFrame 17 (by decide)

end UberApp
